import Mathlib

/-!
Shallow embedding of the attestation pre-state resolver and validator of the
`blockchain` package (file `src/unnamed/part_000`): `getAttPreState`,
`verifyAttTargetEpoch`, `verifyBeaconBlock`, `verifyLMDFFGConsistent` and
`verifyAttestation`, together with theorems settling the frozen claims about
them.

Machine integers are modelled as `Nat`; the one place where 64-bit wraparound
matters (the clock subtraction in `verifyAttTargetEpoch`) performs the
subtraction explicitly modulo `2 ^ 64`.  Fallible Go functions returning
`(T, error)` become `Except E T`.  The Go `*stateTrie.BeaconState` pointers of
`getAttPreState` are modelled with an explicit object heap (a list of state
values indexed by object ids), so that `Copy` (fresh allocation) and the
in-place mutation performed by `state.ProcessSlots` are distinguishable and
frame properties (what is, and is not, mutated) can be stated.  The external
collaborators (state store, state generator, head accessors, the slot
processor) are oracle functions supplied in an environment record, mirroring
the `Service` receiver's fields.
-/

deriving instance DecidableEq for Except

/-- Constant `params.BeaconConfig().SecondsPerSlot` (mainnet configuration). -/
def secondsPerSlot : Nat := 12

/-- Constant `params.BeaconConfig().SlotsPerEpoch` (mainnet configuration). -/
def slotsPerEpoch : Nat := 32

/-- Constant `params.BeaconConfig().DomainBeaconAttester` (mainnet: `[4]byte 01000000`). -/
def domainBeaconAttester : List Nat := [1, 0, 0, 0]

/-- The modulus `2 ^ 64` of Go's `uint64` arithmetic. -/
def u64Mod : Nat := 2 ^ 64

/-- Go `uint64` subtraction `a - b`: wraps modulo `2 ^ 64`. -/
def sub64 (a b : Nat) : Nat := (a % u64Mod + (u64Mod - b % u64Mod)) % u64Mod

/-- Function `helpers.StartSlot`: `StartSlot(epoch) = epoch * SLOTS_PER_EPOCH`. -/
def startSlot (epoch : Nat) : Nat := epoch * slotsPerEpoch

/-- Function `helpers.SlotToEpoch`: `SlotToEpoch(slot) = slot / SLOTS_PER_EPOCH`. -/
def slotToEpoch (slot : Nat) : Nat := slot / slotsPerEpoch

/-- Function `bytesutil.ToBytes32`: copy at most 32 bytes into a zeroed 32-byte array. -/
def toBytes32 (b : List Nat) : List Nat :=
  b.take 32 ++ List.replicate (32 - b.length) 0

/-- An `ethpb.Checkpoint`: an `(epoch, root)` pair. -/
structure Checkpoint where
  epoch : Nat
  root : List Nat
deriving DecidableEq, Repr

/-- Observable part of a `stateTrie.BeaconState` value: its slot plus an
abstract payload standing for all remaining fields. -/
structure BState where
  slot : Nat
  rest : Nat
deriving DecidableEq, Repr

instance : Inhabited BState := ⟨⟨0, 0⟩⟩

/-- The inner `ethpb.BeaconBlock` (only the slot is consulted here). -/
structure BeaconBlockInner where
  slot : Nat
deriving DecidableEq, Repr

/-- An `ethpb.SignedBeaconBlock`; its `Block` field may be nil. -/
structure SignedBeaconBlock where
  block : Option BeaconBlockInner
deriving DecidableEq, Repr

/-- An `ethpb.AttestationData`. -/
structure AttestationData where
  slot : Nat
  committeeIndex : Nat
  beaconBlockRoot : List Nat
  source : Checkpoint
  target : Checkpoint
deriving DecidableEq, Repr

/-- An `ethpb.Attestation` (aggregation bits modelled abstractly). -/
structure Attestation where
  data : AttestationData
  aggregationBits : List Bool
deriving DecidableEq, Repr

/-- An `ethpb.IndexedAttestation`. -/
structure IndexedAttestation where
  attestingIndices : List Nat
  data : AttestationData
deriving DecidableEq, Repr

/-- Error returned by `verifyAttTargetEpoch`: the target epoch matches
neither the current nor the previous epoch. -/
inductive TargetEpochErr
  | outOfRange (target currentEpoch prevEpoch : Nat)
deriving DecidableEq, Repr

/-- The local `currentSlot` of `verifyAttTargetEpoch`:
`(nowTime - genesisTime) / SecondsPerSlot` in wrapping `uint64` arithmetic. -/
def currentSlotOf (genesisTime nowTime : Nat) : Nat :=
  sub64 nowTime genesisTime / secondsPerSlot

/-- The local `currentEpoch` of `verifyAttTargetEpoch`. -/
def currentEpochOf (genesisTime nowTime : Nat) : Nat :=
  slotToEpoch (currentSlotOf genesisTime nowTime)

/-- The local `prevEpoch` of `verifyAttTargetEpoch`, clamped to `0` unless
`currentEpoch > 1` ("prevents previous epoch under flow"). -/
def prevEpochOf (genesisTime nowTime : Nat) : Nat :=
  if 1 < currentEpochOf genesisTime nowTime then currentEpochOf genesisTime nowTime - 1
  else 0

/-- Function `Service.verifyAttTargetEpoch`: the checkpoint's epoch must equal the
current or the previous epoch of the wall clock. -/
def verifyAttTargetEpoch (genesisTime nowTime : Nat) (c : Checkpoint) :
    Except TargetEpochErr Unit :=
  if c.epoch ≠ prevEpochOf genesisTime nowTime ∧ c.epoch ≠ currentEpochOf genesisTime nowTime then
    .error (.outOfRange c.epoch (currentEpochOf genesisTime nowTime)
      (prevEpochOf genesisTime nowTime))
  else
    .ok ()

/-- Error returned by `verifyBeaconBlock`. -/
inductive BeaconBlockErr
  | dbErr (m : String)
  | notExist (r : List Nat)
  | futureBlock (blockSlot attSlot : Nat)
deriving DecidableEq, Repr

/-- Function `Service.verifyBeaconBlock`: the head block named by the attestation must
exist and must not be from a slot after the attestation's slot.  The database
lookup `s.beaconDB.Block` is an oracle parameter `db`. -/
def verifyBeaconBlock (db : List Nat → Except String (Option SignedBeaconBlock))
    (data : AttestationData) : Except BeaconBlockErr Unit :=
  match db (toBytes32 data.beaconBlockRoot) with
  | .error m => .error (.dbErr m)
  | .ok none => .error (.notExist data.beaconBlockRoot)
  | .ok (some sb) =>
    match sb.block with
    | none => .error (.notExist data.beaconBlockRoot)
    | some blk =>
      if data.slot < blk.slot then .error (.futureBlock blk.slot data.slot)
      else .ok ()

/-- Error returned by `verifyLMDFFGConsistent`. -/
inductive LMDFFGErr
  | ancestorErr (m : String)
  | inconsistent
deriving DecidableEq, Repr

/-- Function `Service.verifyLMDFFGConsistent`: the ancestor of the LMD root at the
start slot of the FFG epoch must equal the FFG root bytewise.  The
fork-choice ancestor oracle `s.ancestor` is a parameter. -/
def verifyLMDFFGConsistent (ancestor : List Nat → Nat → Except String (List Nat))
    (ffgEpoch : Nat) (ffgRoot lmdRoot : List Nat) : Except LMDFFGErr Unit :=
  match ancestor lmdRoot (startSlot ffgEpoch) with
  | .error m => .error (.ancestorErr m)
  | .ok r => if ffgRoot = r then .ok () else .error .inconsistent

/-- Feature flags consulted by the service (`featureconfig.Get()`). -/
structure FeatureFlags where
  newStateMgmt : Bool
  checkHeadState : Bool
deriving DecidableEq, Repr

/-- Object heap for `*stateTrie.BeaconState` pointers: object ids are list
indices.  `Copy` allocates a fresh id, `state.ProcessSlots` overwrites the
value at the id it is handed. -/
def hget (h : List BState) (i : Nat) : BState := (h[i]?).getD default

/-- Errors of `getAttPreState`, one constructor per `return nil, err` site. -/
inductive PreStateErr
  | cachedStateErr (m : String)
  | saveInitSyncErr (m : String)
  | stateGenErr (m : String) (slot : Nat)
  | headRootErr (m : String)
  | headStateErr (m : String)
  | dbStateErr (m : String) (slot : Nat)
  | preStateMissing (slot : Nat)
  | processSlotsErr (m : String) (slot : Nat)
deriving DecidableEq, Repr

/-- Observable effects of one `getAttPreState` call, in program order:
the mutex, cache operations, and the calls into the collaborators. -/
inductive Eff
  | lockAcq
  | lockRel
  | cacheLookup (c : Checkpoint)
  | cacheInsert (c : Checkpoint) (id : Nat)
  | hasStateQ (r : List Nat)
  | initSyncFlush
  | stateGenFetch (r : List Nat)
  | dbFetch (r : List Nat)
  | headRootRead
  | headStateRead
  | procSlots (id : Nat) (target : Nat)
deriving DecidableEq, Repr

/-- The `Service` fields `getAttPreState` consults, as oracles.  The state
generator, database and head-state accessors hand out object ids into the
heap (Go pointers); `ps` is `state.ProcessSlots` as a function on state
values, applied in place to the object it receives. -/
structure GEnv where
  flags : FeatureFlags
  stateGenHas : List Nat → Bool
  stateGenRoot : List Nat → Except String Nat
  dbStateRoot : List Nat → Except String (Option Nat)
  headRoot : Except String (List Nat)
  headState : Except String Nat
  saveInitSync : Except String Unit
  ps : BState → Nat → Except String BState

/-- Result of one `getAttPreState` call: the returned pointer (object id) or
error, the heap and checkpoint-state cache after the call, and the effect
trace. -/
structure GRes where
  res : Except PreStateErr Nat
  heap : List BState
  cache : List (Checkpoint × Nat)
  trace : List Eff
deriving Repr

/-- Function `cache.StateByCheckpoint`: association lookup keyed by the checkpoint. -/
def cpLookup (cache : List (Checkpoint × Nat)) (c : Checkpoint) : Option Nat :=
  (cache.find? (fun p => p.1 = c)).map (fun p => p.2)

/-- The tail of `getAttPreState`'s `NewStateMgmt` branch, from
`s.stateGen.StateByRoot` onward: fetch the base state, advance a copy when
the target start slot is ahead of it, insert into the cache and return. -/
def newMgmtCore (e : GEnv) (heap0 : List BState) (cache0 : List (Checkpoint × Nat))
    (c : Checkpoint) (tr : List Eff) : GRes :=
  let r32 := toBytes32 c.root
  match e.stateGenRoot r32 with
  | .error m =>
    ⟨.error (.stateGenErr m (startSlot c.epoch)), heap0, cache0,
      tr ++ [.stateGenFetch r32, .lockRel]⟩
  | .ok idB =>
    let v := hget heap0 idB
    if startSlot c.epoch > v.slot then
      let idC := heap0.length
      let heap1 := heap0 ++ [v]
      match e.ps v (startSlot c.epoch) with
      | .error m =>
        ⟨.error (.processSlotsErr m (startSlot c.epoch)), heap1, cache0,
          tr ++ [.stateGenFetch r32, .procSlots idC (startSlot c.epoch), .lockRel]⟩
      | .ok v2 =>
        ⟨.ok idC, heap1.set idC v2, (c, idC) :: cache0,
          tr ++ [.stateGenFetch r32, .procSlots idC (startSlot c.epoch),
            .cacheInsert c idC, .lockRel]⟩
    else
      ⟨.ok idB, heap0, (c, idB) :: cache0,
        tr ++ [.stateGenFetch r32, .cacheInsert c idB, .lockRel]⟩

/-- The `NewStateMgmt` branch of `getAttPreState`: when the state generator
lacks the root, flush the initial-sync block buffer first, then run
`newMgmtCore`. -/
def newMgmtPath (e : GEnv) (heap0 : List BState) (cache0 : List (Checkpoint × Nat))
    (c : Checkpoint) (tr : List Eff) : GRes :=
  let r32 := toBytes32 c.root
  let tr1 := tr ++ [Eff.hasStateQ r32]
  if e.stateGenHas r32 then
    newMgmtCore e heap0 cache0 c tr1
  else
    match e.saveInitSync with
    | .error m =>
      ⟨.error (.saveInitSyncErr m), heap0, cache0,
        tr1 ++ [.initSyncFlush, .lockRel]⟩
    | .ok _ => newMgmtCore e heap0 cache0 c (tr1 ++ [.initSyncFlush])

/-- The legacy tail of `getAttPreState`: fetch the base state from
`s.beaconDB.State`; when the target start slot is ahead, advance a copy
(`savedState`) in place and cache a further copy of it; otherwise cache a
copy of the base state and return the base state itself. -/
def legacyPath (e : GEnv) (heap0 : List BState) (cache0 : List (Checkpoint × Nat))
    (c : Checkpoint) (tr : List Eff) : GRes :=
  let r32 := toBytes32 c.root
  match e.dbStateRoot r32 with
  | .error m =>
    ⟨.error (.dbStateErr m (startSlot c.epoch)), heap0, cache0,
      tr ++ [.dbFetch r32, .lockRel]⟩
  | .ok none =>
    ⟨.error (.preStateMissing (startSlot c.epoch)), heap0, cache0,
      tr ++ [.dbFetch r32, .lockRel]⟩
  | .ok (some idB) =>
    let v := hget heap0 idB
    if startSlot c.epoch > v.slot then
      let idS := heap0.length
      let heap1 := heap0 ++ [v]
      match e.ps v (startSlot c.epoch) with
      | .error m =>
        ⟨.error (.processSlotsErr m (startSlot c.epoch)), heap1, cache0,
          tr ++ [.dbFetch r32, .procSlots idS (startSlot c.epoch), .lockRel]⟩
      | .ok v2 =>
        let heap2 := heap1.set idS v2
        let idSC := heap2.length
        ⟨.ok idS, heap2 ++ [v2], (c, idSC) :: cache0,
          tr ++ [.dbFetch r32, .procSlots idS (startSlot c.epoch),
            .cacheInsert c idSC, .lockRel]⟩
    else
      let idBC := heap0.length
      ⟨.ok idB, heap0 ++ [v], (c, idBC) :: cache0,
        tr ++ [.dbFetch r32, .cacheInsert c idBC, .lockRel]⟩

/-- The `CheckHeadState` branch and fallthrough of `getAttPreState`: read the
head root; when it equals the checkpoint root, cache a copy of the head state
and return the head state; otherwise fall through to the legacy path. -/
def checkHeadPath (e : GEnv) (heap0 : List BState) (cache0 : List (Checkpoint × Nat))
    (c : Checkpoint) (tr : List Eff) : GRes :=
  match e.headRoot with
  | .error m =>
    ⟨.error (.headRootErr m), heap0, cache0, tr ++ [.headRootRead, .lockRel]⟩
  | .ok hr =>
    if hr = c.root then
      match e.headState with
      | .error m =>
        ⟨.error (.headStateErr m), heap0, cache0,
          tr ++ [.headRootRead, .headStateRead, .lockRel]⟩
      | .ok idH =>
        let v := hget heap0 idH
        let idHC := heap0.length
        ⟨.ok idH, heap0 ++ [v], (c, idHC) :: cache0,
          tr ++ [.headRootRead, .headStateRead, .cacheInsert c idHC, .lockRel]⟩
    else
      legacyPath e heap0 cache0 c (tr ++ [.headRootRead])

/-- Function `Service.getAttPreState`: acquire the checkpoint-state mutex for the
whole call (the deferred unlock closes every trace), consult the cache, and
on a miss resolve the pre-state along the branch the feature flags select. -/
def getAttPreState (e : GEnv) (heap0 : List BState)
    (cache0 : List (Checkpoint × Nat)) (c : Checkpoint) : GRes :=
  let tr0 := [Eff.lockAcq, Eff.cacheLookup c]
  match cpLookup cache0 c with
  | some id => ⟨.ok id, heap0, cache0, tr0 ++ [.lockRel]⟩
  | none =>
    if e.flags.newStateMgmt then newMgmtPath e heap0 cache0 c tr0
    else if e.flags.checkHeadState then checkHeadPath e heap0 cache0 c tr0
    else legacyPath e heap0 cache0 c tr0

/-- Effects that constitute the slow state-generation work of
`getAttPreState`, as opposed to cache lookup and insertion. -/
def isGenEff : Eff → Bool
  | .hasStateQ _ => true
  | .initSyncFlush => true
  | .stateGenFetch _ => true
  | .dbFetch _ => true
  | .headStateRead => true
  | .procSlots _ _ => true
  | _ => false

/-- The events that occur while the exclusive guard is held: those strictly
between the first `lockAcq` and the following `lockRel`. -/
def lockedSpan (tr : List Eff) : List Eff :=
  ((tr.dropWhile (fun x => !(x == Eff.lockAcq))).drop 1).takeWhile
    (fun x => !(x == Eff.lockRel))

/-- Outcome of `blocks.VerifyIndexedAttestation`: `none` is success,
`sigFailed` is the sentinel `helpers.ErrSigFailedToVerify`, `other` is any
different verification error. -/
inductive IndexedVerifyErr
  | sigFailed
  | other (m : String)
deriving DecidableEq, Repr

/-- Errors of `verifyAttestation`, one constructor per `return nil, err`
site; `verifyFailed` is the wrapping `"could not verify indexed attestation"`
around the original verification error. -/
inductive AttVerifyErr
  | committeeErr (m : String)
  | saveInitSyncErr (m : String)
  | stateLoadErr (m : String)
  | nilState (r : List Nat)
  | origSeedErr (m : String)
  | headSeedErr (m : String)
  | seedMismatch (orig head : List Nat)
  | verifyFailed (e : IndexedVerifyErr)
deriving DecidableEq, Repr

/-- The collaborators `verifyAttestation` consults, as oracles: committee
derivation, indexed conversion, indexed-attestation verification, the two
state sources with the initial-sync flush, and `helpers.Seed`. -/
structure VEnv where
  flags : FeatureFlags
  beaconCommittee : BState → Nat → Nat → Except String (List Nat)
  convertToIndexed : Attestation → List Nat → IndexedAttestation
  verifyIndexedAtt : BState → IndexedAttestation → Option IndexedVerifyErr
  stateGenHas : List Nat → Bool
  stateGenState : List Nat → Except String (Option BState)
  dbState : List Nat → Except String (Option BState)
  saveInitSync : Except String Unit
  seed : BState → Nat → List Nat → Except String (List Nat)

/-- The state load at `a.Data.BeaconBlockRoot` inside `verifyAttestation`'s
signature-failure branch: through the state generator (after an initial-sync
flush when the root is unknown) under `NewStateMgmt`, else through the
database. -/
def loadAttBlockState (e : VEnv) (root : List Nat) : Except AttVerifyErr (Option BState) :=
  if e.flags.newStateMgmt then
    if e.stateGenHas (toBytes32 root) then
      match e.stateGenState (toBytes32 root) with
      | .error m => .error (.stateLoadErr m)
      | .ok s => .ok s
    else
      match e.saveInitSync with
      | .error m => .error (.saveInitSyncErr m)
      | .ok _ =>
        match e.stateGenState (toBytes32 root) with
        | .error m => .error (.stateLoadErr m)
        | .ok s => .ok s
  else
    match e.dbState (toBytes32 root) with
    | .error m => .error (.stateLoadErr m)
    | .ok s => .ok s

/-- Function `Service.verifyAttestation`: derive the committee from the pre-state,
convert to an indexed attestation, verify it; on the signature-failure
sentinel, reconcile the attester seed of the pre-state against the seed of
the state at the attestation's beacon block root, failing with a
seed-mismatch error when they differ and with the wrapped original error
when they agree; wrap any other verification error unchanged. -/
def verifyAttestation (e : VEnv) (baseState : BState) (a : Attestation) :
    Except AttVerifyErr IndexedAttestation :=
  match e.beaconCommittee baseState a.data.slot a.data.committeeIndex with
  | .error m => .error (.committeeErr m)
  | .ok committee =>
    let indexedAtt := e.convertToIndexed a committee
    match e.verifyIndexedAtt baseState indexedAtt with
    | none => .ok indexedAtt
    | some ve =>
      if ve = .sigFailed then
        match loadAttBlockState e a.data.beaconBlockRoot with
        | .error err => .error err
        | .ok none => .error (.nilState a.data.beaconBlockRoot)
        | .ok (some aState) =>
          let epoch := slotToEpoch a.data.slot
          match e.seed baseState epoch domainBeaconAttester with
          | .error m => .error (.origSeedErr m)
          | .ok origSeed =>
            match e.seed aState epoch domainBeaconAttester with
            | .error m => .error (.headSeedErr m)
            | .ok aSeed =>
              if origSeed ≠ aSeed then .error (.seedMismatch origSeed aSeed)
              else .error (.verifyFailed ve)
      else .error (.verifyFailed ve)

example : verifyAttTargetEpoch 0 768 ⟨1, []⟩ = .ok () := by decide

example : verifyAttTargetEpoch 0 768 ⟨0, []⟩ = .error (.outOfRange 0 2 1) := by decide

example : verifyAttTargetEpoch 0 0 ⟨0, []⟩ = .ok () := by decide

example :
    verifyBeaconBlock (fun _ => .ok (some ⟨some ⟨5⟩⟩)) ⟨5, 0, [1], ⟨0, []⟩, ⟨0, []⟩⟩ =
      .ok () := by decide

example :
    verifyBeaconBlock (fun _ => .ok (some ⟨some ⟨6⟩⟩)) ⟨5, 0, [1], ⟨0, []⟩, ⟨0, []⟩⟩ =
      .error (.futureBlock 6 5) := by decide

example :
    verifyLMDFFGConsistent (fun _ _ => .ok [9]) 4 [9] [3] = .ok () := by decide

example :
    verifyLMDFFGConsistent (fun _ _ => .ok [9]) 4 [8] [3] = .error .inconsistent := by
  decide

theorem hget_append_lt (l l2 : List BState) (i : Nat) (h : i < l.length) :
    hget (l ++ l2) i = hget l i := by
  simp [hget, List.getElem?_append, h]

theorem hget_append_self (l : List BState) (v : BState) :
    hget (l ++ [v]) l.length = v := by
  simp [hget]

theorem hget_set_lt_ne (l : List BState) (i j : Nat) (v : BState) (hne : i ≠ j) :
    hget (l.set j v) i = hget l i := by
  simp only [hget, List.getElem?_set]
  rw [if_neg (fun h => hne h.symm)]

/-- C3: the target-epoch bound check accepts exactly the previous and the
current epoch, with the previous epoch clamped to `0` when the current epoch
is at most `1`; at current epoch `0` only target epoch `0` is accepted. -/
theorem target_epoch_bound (genesisTime nowTime : Nat) (c : Checkpoint) :
    ((∃ er, verifyAttTargetEpoch genesisTime nowTime c = .error er) ↔
      ¬ (c.epoch = prevEpochOf genesisTime nowTime ∨
         c.epoch = currentEpochOf genesisTime nowTime)) ∧
    (currentEpochOf genesisTime nowTime = 0 →
      (verifyAttTargetEpoch genesisTime nowTime c = .ok () ↔ c.epoch = 0)) := by
  constructor
  · by_cases h : c.epoch ≠ prevEpochOf genesisTime nowTime ∧
        c.epoch ≠ currentEpochOf genesisTime nowTime
    · simp only [verifyAttTargetEpoch, if_pos h]
      constructor
      · intro _
        tauto
      · intro _
        exact ⟨_, rfl⟩
    · simp only [verifyAttTargetEpoch, if_neg h]
      constructor
      · rintro ⟨er, her⟩
        cases her
      · intro hc
        exact absurd (by tauto) h
  · intro h0
    have hprev : prevEpochOf genesisTime nowTime = 0 := by
      simp [prevEpochOf, h0]
    by_cases hc : c.epoch = 0
    · simp [verifyAttTargetEpoch, hprev, h0, hc]
    · simp [verifyAttTargetEpoch, hprev, h0, hc]

theorem target_epoch_bound_witness :
    ((∃ er, verifyAttTargetEpoch 0 768 ⟨0, []⟩ = .error er) ↔
      ¬ ((0 : Nat) = prevEpochOf 0 768 ∨ (0 : Nat) = currentEpochOf 0 768)) ∧
    (currentEpochOf 0 0 = 0 →
      (verifyAttTargetEpoch 0 0 ⟨5, []⟩ = .ok () ↔ (5 : Nat) = 0)) :=
  ⟨(target_epoch_bound 0 768 ⟨0, []⟩).1, (target_epoch_bound 0 0 ⟨5, []⟩).2⟩

/-- C4: `verifyBeaconBlock` fails with the not-exist error when no block (or
a nil inner block) is stored at the attestation's beacon block root, fails
with the future-block error exactly when the stored block's slot is strictly
greater than the attestation's slot, and succeeds otherwise; an equal slot is
accepted. -/
theorem beacon_block_sanity (db : List Nat → Except String (Option SignedBeaconBlock))
    (data : AttestationData) :
    (db (toBytes32 data.beaconBlockRoot) = .ok none →
      verifyBeaconBlock db data = .error (.notExist data.beaconBlockRoot)) ∧
    (∀ sb, db (toBytes32 data.beaconBlockRoot) = .ok (some sb) → sb.block = none →
      verifyBeaconBlock db data = .error (.notExist data.beaconBlockRoot)) ∧
    (∀ sb blk, db (toBytes32 data.beaconBlockRoot) = .ok (some sb) → sb.block = some blk →
      ((verifyBeaconBlock db data = .error (.futureBlock blk.slot data.slot)) ↔
        data.slot < blk.slot) ∧
      (verifyBeaconBlock db data = .ok () ↔ blk.slot ≤ data.slot) ∧
      (blk.slot = data.slot → verifyBeaconBlock db data = .ok ())) := by
  refine ⟨?_, ?_, ?_⟩
  · intro h
    simp [verifyBeaconBlock, h]
  · intro sb h hb
    simp [verifyBeaconBlock, h, hb]
  · intro sb blk h hb
    by_cases hlt : data.slot < blk.slot
    · refine ⟨⟨fun _ => hlt, fun _ => ?_⟩, ⟨fun hok => ?_, fun hle => ?_⟩, fun heq => ?_⟩
      · simp [verifyBeaconBlock, h, hb, hlt]
      · simp [verifyBeaconBlock, h, hb, hlt] at hok
      · omega
      · omega
    · refine ⟨⟨fun hf => ?_, fun hl => absurd hl hlt⟩, ⟨fun _ => by omega, fun _ => ?_⟩,
        fun _ => ?_⟩
      · simp [verifyBeaconBlock, h, hb, hlt] at hf
      · simp [verifyBeaconBlock, h, hb, hlt]
      · simp [verifyBeaconBlock, h, hb, hlt]

theorem beacon_block_sanity_witness :
    ((fun _ => Except.ok (some ⟨some ⟨5⟩⟩) :
        List Nat → Except String (Option SignedBeaconBlock)) (toBytes32 [1]) =
      .ok (some ⟨some ⟨5⟩⟩)) ∧
    (verifyBeaconBlock (fun _ => .ok (some ⟨some ⟨5⟩⟩))
        ⟨5, 0, [1], ⟨0, []⟩, ⟨0, []⟩⟩ = .ok ()) :=
  ⟨rfl,
    ((beacon_block_sanity (fun _ => .ok (some ⟨some ⟨5⟩⟩))
      ⟨5, 0, [1], ⟨0, []⟩, ⟨0, []⟩⟩).2.2 ⟨some ⟨5⟩⟩ ⟨5⟩ rfl rfl).2.2 rfl⟩

/-- C5: when the ancestor oracle succeeds, `verifyLMDFFGConsistent` succeeds
exactly when the ancestor of the LMD root at the start slot of the FFG epoch
equals the FFG root bytewise, and fails with the inconsistency error
otherwise. -/
theorem lmd_ffg_consistency (ancestor : List Nat → Nat → Except String (List Nat))
    (ffgEpoch : Nat) (ffgRoot lmdRoot r : List Nat)
    (h : ancestor lmdRoot (startSlot ffgEpoch) = .ok r) :
    (verifyLMDFFGConsistent ancestor ffgEpoch ffgRoot lmdRoot = .ok () ↔ ffgRoot = r) ∧
    (ffgRoot ≠ r →
      verifyLMDFFGConsistent ancestor ffgEpoch ffgRoot lmdRoot = .error .inconsistent) := by
  by_cases he : ffgRoot = r
  · refine ⟨⟨fun _ => he, fun _ => ?_⟩, fun hne => absurd he hne⟩
    simp [verifyLMDFFGConsistent, h, he]
  · refine ⟨⟨fun hok => ?_, fun hr => absurd hr he⟩, fun _ => ?_⟩
    · simp [verifyLMDFFGConsistent, h, he] at hok
    · simp [verifyLMDFFGConsistent, h, he]

theorem lmd_ffg_consistency_witness :
    ((fun _ _ => Except.ok [9] : List Nat → Nat → Except String (List Nat)) [3]
        (startSlot 4) = .ok [9]) ∧
    (verifyLMDFFGConsistent (fun _ _ => .ok [9]) 4 [9] [3] = .ok () ↔ [9] = [9]) :=
  ⟨rfl, (lmd_ffg_consistency (fun _ _ => .ok [9]) 4 [9] [3] [9] rfl).1⟩

/-- C10: when the wall clock is before genesis, the `uint64` clock
subtraction wraps modulo `2 ^ 64`, the computed current epoch is enormous
(above `2 ^ 54` for any genesis time below `2 ^ 40`), and the target-epoch
check rejects every realistic target epoch (any epoch up to `2 ^ 50`). -/
theorem clock_underflow (genesisTime nowTime : Nat)
    (h1 : nowTime < genesisTime) (h2 : genesisTime < 2 ^ 40) :
    sub64 nowTime genesisTime = 2 ^ 64 - (genesisTime - nowTime) ∧
    2 ^ 54 < currentEpochOf genesisTime nowTime ∧
    ∀ c : Checkpoint, c.epoch ≤ 2 ^ 50 →
      verifyAttTargetEpoch genesisTime nowTime c =
        .error (.outOfRange c.epoch (currentEpochOf genesisTime nowTime)
          (prevEpochOf genesisTime nowTime)) := by
  have hw : sub64 nowTime genesisTime = 2 ^ 64 - (genesisTime - nowTime) := by
    simp only [sub64, u64Mod]
    omega
  have hcur : 2 ^ 54 < currentEpochOf genesisTime nowTime := by
    simp only [currentEpochOf, currentSlotOf, slotToEpoch, hw, secondsPerSlot, slotsPerEpoch]
    omega
  refine ⟨hw, hcur, fun c hc => ?_⟩
  have hprev : prevEpochOf genesisTime nowTime = currentEpochOf genesisTime nowTime - 1 := by
    simp only [prevEpochOf, if_pos (by omega : 1 < currentEpochOf genesisTime nowTime)]
  rw [verifyAttTargetEpoch, if_pos]
  exact ⟨by omega, by omega⟩

theorem clock_underflow_witness :
    ((0 : Nat) < 1000 ∧ (1000 : Nat) < 2 ^ 40) ∧
    verifyAttTargetEpoch 1000 0 ⟨0, []⟩ =
      .error (.outOfRange 0 (currentEpochOf 1000 0) (prevEpochOf 1000 0)) :=
  ⟨⟨by norm_num, by norm_num⟩,
    (clock_underflow 1000 0 (by norm_num) (by norm_num)).2.2 ⟨0, []⟩ (Nat.zero_le _)⟩

/-- C2: when indexed-attestation verification fails with the
signature-failure sentinel, `verifyAttestation` loads the state at the
attestation's beacon block root and compares the attester-domain seeds of the
target pre-state and of that state: differing seeds produce the seed-mismatch
error, equal seeds reproduce the original (wrapped) signature failure; any
verification failure other than the signature sentinel is returned wrapped,
with no reconciliation. -/
theorem fork_seed_reconciliation (e : VEnv) (baseState : BState) (a : Attestation)
    (committee : List Nat)
    (hc : e.beaconCommittee baseState a.data.slot a.data.committeeIndex = .ok committee) :
    (e.verifyIndexedAtt baseState (e.convertToIndexed a committee) = some .sigFailed →
      ∀ aState s1 s2,
        loadAttBlockState e a.data.beaconBlockRoot = .ok (some aState) →
        e.seed baseState (slotToEpoch a.data.slot) domainBeaconAttester = .ok s1 →
        e.seed aState (slotToEpoch a.data.slot) domainBeaconAttester = .ok s2 →
        (s1 ≠ s2 → verifyAttestation e baseState a = .error (.seedMismatch s1 s2)) ∧
        (s1 = s2 → verifyAttestation e baseState a = .error (.verifyFailed .sigFailed))) ∧
    (∀ m, e.verifyIndexedAtt baseState (e.convertToIndexed a committee) = some (.other m) →
      verifyAttestation e baseState a = .error (.verifyFailed (.other m))) := by
  constructor
  · intro hsig aState s1 s2 hload h1 h2
    constructor
    · intro hne
      simp [verifyAttestation, hc, hsig, hload, h1, h2, hne]
    · intro heqs
      simp [verifyAttestation, hc, hsig, hload, h1, h2, heqs]
  · intro m hother
    simp [verifyAttestation, hc, hother]

theorem fork_seed_reconciliation_witness :
    ((fun _ _ _ => Except.ok [0] : BState → Nat → Nat → Except String (List Nat)) ⟨32, 0⟩
        (63 : Nat) (0 : Nat) = .ok [0]) ∧
    verifyAttestation
        ⟨⟨true, false⟩, fun _ _ _ => .ok [0], fun a _ => ⟨[5, 11], a.data⟩,
          fun _ _ => some .sigFailed, fun _ => true, fun _ => .ok (some ⟨40, 7⟩),
          fun _ => .error "db", .ok (), fun st _ _ => .ok [st.rest]⟩
        ⟨32, 0⟩ ⟨⟨63, 0, [2], ⟨0, []⟩, ⟨1, [3]⟩⟩, [true]⟩ =
      .error (.seedMismatch [0] [7]) :=
  ⟨rfl,
    ((fork_seed_reconciliation
        ⟨⟨true, false⟩, fun _ _ _ => .ok [0], fun a _ => ⟨[5, 11], a.data⟩,
          fun _ _ => some .sigFailed, fun _ => true, fun _ => .ok (some ⟨40, 7⟩),
          fun _ => .error "db", .ok (), fun st _ _ => .ok [st.rest]⟩
        ⟨32, 0⟩ ⟨⟨63, 0, [2], ⟨0, []⟩, ⟨1, [3]⟩⟩, [true]⟩ [0] rfl).1
      rfl ⟨40, 7⟩ [0] [7] rfl rfl rfl).1 (by decide)⟩

theorem getAttPreState_hit (e : GEnv) (heap0 : List BState)
    (cache0 : List (Checkpoint × Nat)) (c : Checkpoint) (id : Nat)
    (h : cpLookup cache0 c = some id) :
    getAttPreState e heap0 cache0 c =
      ⟨.ok id, heap0, cache0, [.lockAcq, .cacheLookup c, .lockRel]⟩ := by
  simp [getAttPreState, h]

/-- C8: a cache hit returns the cached state id with the store untouched and
an effect trace consisting solely of the guarded cache lookup: no state-store
read, no state-generator call, no initial-sync flush and no insertion. -/
theorem cache_hit_short_circuit (e : GEnv) (heap0 : List BState)
    (cache0 : List (Checkpoint × Nat)) (c : Checkpoint) (id : Nat)
    (h : cpLookup cache0 c = some id) :
    (getAttPreState e heap0 cache0 c).res = .ok id ∧
    (getAttPreState e heap0 cache0 c).heap = heap0 ∧
    (getAttPreState e heap0 cache0 c).cache = cache0 ∧
    (getAttPreState e heap0 cache0 c).trace = [.lockAcq, .cacheLookup c, .lockRel] ∧
    (getAttPreState e heap0 cache0 c).trace.filter isGenEff = [] := by
  rw [getAttPreState_hit e heap0 cache0 c id h]
  exact ⟨rfl, rfl, rfl, rfl, rfl⟩

/-- Concrete collaborators exercising the `CheckHeadState` branch of
`getAttPreState`, with the head state one slot before the target epoch
boundary. -/
def headBranchEnv : GEnv where
  flags := ⟨false, true⟩
  stateGenHas := fun _ => false
  stateGenRoot := fun _ => .error "unused"
  dbStateRoot := fun _ => .error "unused"
  headRoot := .ok [7]
  headState := .ok 0
  saveInitSync := .ok ()
  ps := fun s t => .ok ⟨t, s.rest⟩

/-- C1 is violated by the `CheckHeadState` branch: when the target
checkpoint's root equals the head root, `getAttPreState` caches a copy of
the head state without advancing it, so with the head state at slot 31 and
an epoch-1 checkpoint (whose start slot is 32) the cached state's slot
differs from the epoch start slot. -/
theorem checkpoint_cache_invariant_violated :
    (getAttPreState headBranchEnv [⟨31, 5⟩] [] ⟨1, [7]⟩).cache = [(⟨1, [7]⟩, 1)] ∧
    hget (getAttPreState headBranchEnv [⟨31, 5⟩] [] ⟨1, [7]⟩).heap 1 = ⟨31, 5⟩ ∧
    startSlot (1 : Nat) = 32 ∧
    (getAttPreState headBranchEnv [⟨31, 5⟩] [] ⟨1, [7]⟩).res = .ok 0 ∧
    (hget (getAttPreState headBranchEnv [⟨31, 5⟩] [] ⟨1, [7]⟩).heap 1).slot ≠
      startSlot (1 : Nat) := by
  decide

/-- Concrete collaborators driving the `NewStateMgmt` generation path of
`getAttPreState`. -/
def genPathEnv : GEnv where
  flags := ⟨true, false⟩
  stateGenHas := fun _ => true
  stateGenRoot := fun _ => .ok 0
  dbStateRoot := fun _ => .error "unused"
  headRoot := .error "unused"
  headState := .error "unused"
  saveInitSync := .ok ()
  ps := fun s t => .ok ⟨t, s.rest⟩

/-- C7: when the fetched base state's slot already equals the target epoch's
start slot, the strict greater-than guard skips the advance in both the
`NewStateMgmt` and the legacy path: no `ProcessSlots` call occurs, the base
state object itself is returned and its value is unchanged. -/
theorem equal_slot_no_advance (e : GEnv) (heap0 : List BState)
    (cache0 : List (Checkpoint × Nat)) (c : Checkpoint) (idB : Nat)
    (hmiss : cpLookup cache0 c = none)
    (hlt : idB < heap0.length)
    (heq : (hget heap0 idB).slot = startSlot c.epoch) :
    (e.flags.newStateMgmt = true → e.stateGenHas (toBytes32 c.root) = true →
      e.stateGenRoot (toBytes32 c.root) = .ok idB →
      (getAttPreState e heap0 cache0 c).res = .ok idB ∧
      hget (getAttPreState e heap0 cache0 c).heap idB = hget heap0 idB ∧
      ∀ i t, Eff.procSlots i t ∉ (getAttPreState e heap0 cache0 c).trace) ∧
    (e.flags.newStateMgmt = false → e.flags.checkHeadState = false →
      e.dbStateRoot (toBytes32 c.root) = .ok (some idB) →
      (getAttPreState e heap0 cache0 c).res = .ok idB ∧
      hget (getAttPreState e heap0 cache0 c).heap idB = hget heap0 idB ∧
      ∀ i t, Eff.procSlots i t ∉ (getAttPreState e heap0 cache0 c).trace) := by
  have hngt : ¬ (startSlot c.epoch > (hget heap0 idB).slot) := by omega
  constructor
  · intro hflag hhas hroot
    simp only [getAttPreState, hmiss, hflag, if_true, newMgmtPath, hhas,
      newMgmtCore, hroot, hngt, if_false, gt_iff_lt]
    refine ⟨trivial, trivial, ?_⟩
    intro i t
    simp
  · intro hflag1 hflag2 hroot
    simp only [getAttPreState, hmiss, hflag1, hflag2, Bool.false_eq_true, if_false,
      legacyPath, hroot, hngt, gt_iff_lt]
    refine ⟨trivial, hget_append_lt heap0 _ idB hlt, ?_⟩
    intro i t
    simp

theorem newMgmtCore_frame (e : GEnv) (heap0 : List BState)
    (cache0 : List (Checkpoint × Nat)) (c : Checkpoint) (tr : List Eff) :
    (∀ i, i < heap0.length →
      hget (newMgmtCore e heap0 cache0 c tr).heap i = hget heap0 i) ∧
    (∀ i t, Eff.procSlots i t ∈ (newMgmtCore e heap0 cache0 c tr).trace →
      Eff.procSlots i t ∈ tr ∨ i = heap0.length) := by
  cases hroot : e.stateGenRoot (toBytes32 c.root) with
  | error m =>
    simp only [newMgmtCore, hroot]
    refine ⟨fun i _ => by trivial, fun i t h => ?_⟩
    simp at h
    exact Or.inl h
  | ok idB =>
    by_cases hgt : startSlot c.epoch > (hget heap0 idB).slot
    · cases hps : e.ps (hget heap0 idB) (startSlot c.epoch) with
      | error m =>
        simp only [newMgmtCore, hroot, if_pos hgt, hps]
        refine ⟨fun i hi => hget_append_lt heap0 _ i hi, fun i t h => ?_⟩
        simp at h
        tauto
      | ok v2 =>
        simp only [newMgmtCore, hroot, if_pos hgt, hps]
        refine ⟨fun i hi => ?_, fun i t h => ?_⟩
        · rw [hget_set_lt_ne _ i heap0.length v2 (by omega),
            hget_append_lt heap0 _ i hi]
        · simp at h
          tauto
    · simp only [newMgmtCore, hroot, if_neg hgt]
      refine ⟨fun i _ => by trivial, fun i t h => ?_⟩
      simp at h
      exact Or.inl h

theorem newMgmtPath_frame (e : GEnv) (heap0 : List BState)
    (cache0 : List (Checkpoint × Nat)) (c : Checkpoint) (tr : List Eff) :
    (∀ i, i < heap0.length →
      hget (newMgmtPath e heap0 cache0 c tr).heap i = hget heap0 i) ∧
    (∀ i t, Eff.procSlots i t ∈ (newMgmtPath e heap0 cache0 c tr).trace →
      Eff.procSlots i t ∈ tr ∨ i = heap0.length) := by
  by_cases hhas : e.stateGenHas (toBytes32 c.root)
  · simp only [newMgmtPath, hhas, if_true]
    have h := newMgmtCore_frame e heap0 cache0 c (tr ++ [Eff.hasStateQ (toBytes32 c.root)])
    refine ⟨h.1, fun i t hm => ?_⟩
    rcases h.2 i t hm with hin | hlen
    · simp at hin
      tauto
    · tauto
  · simp only [newMgmtPath, hhas, if_false, Bool.false_eq_true]
    cases hs : e.saveInitSync with
    | error m =>
      simp only [hs]
      refine ⟨fun i _ => by trivial, fun i t h => ?_⟩
      simp at h
      exact Or.inl h
    | ok u =>
      simp only [hs]
      have h := newMgmtCore_frame e heap0 cache0 c
        (tr ++ [Eff.hasStateQ (toBytes32 c.root)] ++ [Eff.initSyncFlush])
      refine ⟨h.1, fun i t hm => ?_⟩
      rcases h.2 i t hm with hin | hlen
      · simp at hin
        tauto
      · tauto

theorem legacyPath_frame (e : GEnv) (heap0 : List BState)
    (cache0 : List (Checkpoint × Nat)) (c : Checkpoint) (tr : List Eff) :
    (∀ i, i < heap0.length →
      hget (legacyPath e heap0 cache0 c tr).heap i = hget heap0 i) ∧
    (∀ i t, Eff.procSlots i t ∈ (legacyPath e heap0 cache0 c tr).trace →
      Eff.procSlots i t ∈ tr ∨ i = heap0.length) := by
  cases hroot : e.dbStateRoot (toBytes32 c.root) with
  | error m =>
    simp only [legacyPath, hroot]
    refine ⟨fun i _ => by trivial, fun i t h => ?_⟩
    simp at h
    exact Or.inl h
  | ok ob =>
    cases ob with
    | none =>
      simp only [legacyPath, hroot]
      refine ⟨fun i _ => by trivial, fun i t h => ?_⟩
      simp at h
      exact Or.inl h
    | some idB =>
      by_cases hgt : startSlot c.epoch > (hget heap0 idB).slot
      · cases hps : e.ps (hget heap0 idB) (startSlot c.epoch) with
        | error m =>
          simp only [legacyPath, hroot, if_pos hgt, hps]
          refine ⟨fun i hi => hget_append_lt heap0 _ i hi, fun i t h => ?_⟩
          simp at h
          tauto
        | ok v2 =>
          simp only [legacyPath, hroot, if_pos hgt, hps]
          refine ⟨fun i hi => ?_, fun i t h => ?_⟩
          · rw [hget_append_lt _ _ i (by simp; omega),
              hget_set_lt_ne _ i heap0.length v2 (by omega),
              hget_append_lt heap0 _ i hi]
          · simp at h
            tauto
      · simp only [legacyPath, hroot, if_neg hgt]
        refine ⟨fun i hi => hget_append_lt heap0 _ i hi, fun i t h => ?_⟩
        simp at h
        exact Or.inl h

theorem checkHeadPath_frame (e : GEnv) (heap0 : List BState)
    (cache0 : List (Checkpoint × Nat)) (c : Checkpoint) (tr : List Eff) :
    (∀ i, i < heap0.length →
      hget (checkHeadPath e heap0 cache0 c tr).heap i = hget heap0 i) ∧
    (∀ i t, Eff.procSlots i t ∈ (checkHeadPath e heap0 cache0 c tr).trace →
      Eff.procSlots i t ∈ tr ∨ i = heap0.length) := by
  cases hhr : e.headRoot with
  | error m =>
    simp only [checkHeadPath, hhr]
    refine ⟨fun i _ => by trivial, fun i t h => ?_⟩
    simp at h
    exact Or.inl h
  | ok hr =>
    by_cases heq : hr = c.root
    · simp only [checkHeadPath, hhr, if_pos heq]
      cases hhs : e.headState with
      | error m =>
        simp only [hhs]
        refine ⟨fun i _ => by trivial, fun i t h => ?_⟩
        simp at h
        exact Or.inl h
      | ok idH =>
        simp only [hhs]
        refine ⟨fun i hi => hget_append_lt heap0 _ i hi, fun i t h => ?_⟩
        simp at h
        exact Or.inl h
    · simp only [checkHeadPath, hhr, if_neg heq]
      have h := legacyPath_frame e heap0 cache0 c (tr ++ [Eff.headRootRead])
      refine ⟨h.1, fun i t hm => ?_⟩
      rcases h.2 i t hm with hin | hlen
      · simp at hin
        tauto
      · tauto

/-- C6: in every branch of `getAttPreState` the empty-slot advance is
applied only to freshly copied state objects — every `ProcessSlots` effect
targets an object allocated during the call — and no state object existing
before the call (in particular the base state fetched from the store or the
generator) has its value changed. -/
theorem copy_before_advance (e : GEnv) (heap0 : List BState)
    (cache0 : List (Checkpoint × Nat)) (c : Checkpoint) :
    (∀ i, i < heap0.length →
      hget (getAttPreState e heap0 cache0 c).heap i = hget heap0 i) ∧
    (∀ i t, Eff.procSlots i t ∈ (getAttPreState e heap0 cache0 c).trace →
      heap0.length ≤ i) := by
  cases hl : cpLookup cache0 c with
  | some id =>
    simp only [getAttPreState, hl]
    refine ⟨fun i _ => by trivial, fun i t h => ?_⟩
    simp at h
  | none =>
    by_cases h1 : e.flags.newStateMgmt
    · simp only [getAttPreState, hl, h1, if_true]
      have h := newMgmtPath_frame e heap0 cache0 c [Eff.lockAcq, Eff.cacheLookup c]
      refine ⟨h.1, fun i t hm => ?_⟩
      rcases h.2 i t hm with hin | hlen
      · simp at hin
      · omega
    · by_cases h2 : e.flags.checkHeadState
      · simp only [getAttPreState, hl, h1, h2, if_false, if_true, Bool.false_eq_true]
        have h := checkHeadPath_frame e heap0 cache0 c [Eff.lockAcq, Eff.cacheLookup c]
        refine ⟨h.1, fun i t hm => ?_⟩
        rcases h.2 i t hm with hin | hlen
        · simp at hin
        · omega
      · simp only [getAttPreState, hl, h1, h2, if_false, Bool.false_eq_true]
        have h := legacyPath_frame e heap0 cache0 c [Eff.lockAcq, Eff.cacheLookup c]
        refine ⟨h.1, fun i t hm => ?_⟩
        rcases h.2 i t hm with hin | hlen
        · simp at hin
        · omega

theorem copy_before_advance_witness :
    (0 : Nat) < 1 ∧
    hget (getAttPreState genPathEnv [⟨20, 5⟩] [] ⟨1, [7]⟩).heap 0 = hget [⟨20, 5⟩] 0 :=
  ⟨by decide, (copy_before_advance genPathEnv [⟨20, 5⟩] [] ⟨1, [7]⟩).1 0 (by decide)⟩

theorem equal_slot_no_advance_witness :
    cpLookup [] ⟨1, [7]⟩ = none ∧
    (getAttPreState genPathEnv [⟨32, 5⟩] [] ⟨1, [7]⟩).res = .ok 0 :=
  ⟨rfl, ((equal_slot_no_advance genPathEnv [⟨32, 5⟩] [] ⟨1, [7]⟩ 0 rfl (by decide)
    (by decide)).1 rfl rfl rfl).1⟩

theorem cache_hit_short_circuit_witness :
    cpLookup [(⟨1, [7]⟩, 0)] ⟨1, [7]⟩ = some 0 ∧
    (getAttPreState genPathEnv [⟨32, 5⟩] [(⟨1, [7]⟩, 0)] ⟨1, [7]⟩).res = .ok 0 :=
  ⟨by decide,
    (cache_hit_short_circuit genPathEnv [⟨32, 5⟩] [(⟨1, [7]⟩, 0)] ⟨1, [7]⟩ 0 (by decide)).1⟩

theorem cpLookup_cons_self (k : List (Checkpoint × Nat)) (c : Checkpoint) (j : Nat) :
    cpLookup ((c, j) :: k) c = some j := by
  simp [cpLookup]

theorem newMgmtCore_trace_shape (e : GEnv) (heap0 : List BState)
    (cache0 : List (Checkpoint × Nat)) (c : Checkpoint) (tr : List Eff) :
    ∃ mid, (newMgmtCore e heap0 cache0 c tr).trace = tr ++ (mid ++ [Eff.lockRel]) := by
  cases hroot : e.stateGenRoot (toBytes32 c.root) with
  | error m =>
    exact ⟨[.stateGenFetch (toBytes32 c.root)], by simp [newMgmtCore, hroot]⟩
  | ok idB =>
    by_cases hgt : startSlot c.epoch > (hget heap0 idB).slot
    · cases hps : e.ps (hget heap0 idB) (startSlot c.epoch) with
      | error m =>
        exact ⟨[.stateGenFetch (toBytes32 c.root),
          .procSlots heap0.length (startSlot c.epoch)],
          by simp [newMgmtCore, hroot, if_pos hgt, hps]⟩
      | ok v2 =>
        exact ⟨[.stateGenFetch (toBytes32 c.root),
          .procSlots heap0.length (startSlot c.epoch), .cacheInsert c heap0.length],
          by simp [newMgmtCore, hroot, if_pos hgt, hps]⟩
    · exact ⟨[.stateGenFetch (toBytes32 c.root), .cacheInsert c idB],
        by simp [newMgmtCore, hroot, if_neg hgt]⟩

theorem newMgmtPath_trace_shape (e : GEnv) (heap0 : List BState)
    (cache0 : List (Checkpoint × Nat)) (c : Checkpoint) (tr : List Eff) :
    ∃ mid, (newMgmtPath e heap0 cache0 c tr).trace = tr ++ (mid ++ [Eff.lockRel]) := by
  by_cases hhas : e.stateGenHas (toBytes32 c.root)
  · obtain ⟨mid, hm⟩ := newMgmtCore_trace_shape e heap0 cache0 c
      (tr ++ [Eff.hasStateQ (toBytes32 c.root)])
    refine ⟨Eff.hasStateQ (toBytes32 c.root) :: mid, ?_⟩
    simp only [newMgmtPath, hhas, if_true]
    simp [hm]
  · cases hs : e.saveInitSync with
    | error m =>
      refine ⟨[Eff.hasStateQ (toBytes32 c.root), Eff.initSyncFlush], ?_⟩
      simp [newMgmtPath, hhas, hs]
    | ok u =>
      obtain ⟨mid, hm⟩ := newMgmtCore_trace_shape e heap0 cache0 c
        (tr ++ [Eff.hasStateQ (toBytes32 c.root), Eff.initSyncFlush])
      refine ⟨Eff.hasStateQ (toBytes32 c.root) :: Eff.initSyncFlush :: mid, ?_⟩
      simp only [newMgmtPath, hhas, if_false, Bool.false_eq_true, hs]
      simp [hm]

theorem legacyPath_trace_shape (e : GEnv) (heap0 : List BState)
    (cache0 : List (Checkpoint × Nat)) (c : Checkpoint) (tr : List Eff) :
    ∃ mid, (legacyPath e heap0 cache0 c tr).trace = tr ++ (mid ++ [Eff.lockRel]) := by
  cases hroot : e.dbStateRoot (toBytes32 c.root) with
  | error m =>
    exact ⟨[.dbFetch (toBytes32 c.root)], by simp [legacyPath, hroot]⟩
  | ok ob =>
    cases ob with
    | none => exact ⟨[.dbFetch (toBytes32 c.root)], by simp [legacyPath, hroot]⟩
    | some idB =>
      by_cases hgt : startSlot c.epoch > (hget heap0 idB).slot
      · cases hps : e.ps (hget heap0 idB) (startSlot c.epoch) with
        | error m =>
          exact ⟨[.dbFetch (toBytes32 c.root),
            .procSlots heap0.length (startSlot c.epoch)],
            by simp [legacyPath, hroot, if_pos hgt, hps]⟩
        | ok v2 =>
          exact ⟨[.dbFetch (toBytes32 c.root),
            .procSlots heap0.length (startSlot c.epoch),
            .cacheInsert c ((heap0 ++ [hget heap0 idB]).set heap0.length v2).length],
            by simp [legacyPath, hroot, if_pos hgt, hps]⟩
      · exact ⟨[.dbFetch (toBytes32 c.root), .cacheInsert c heap0.length],
          by simp [legacyPath, hroot, if_neg hgt]⟩

theorem checkHeadPath_trace_shape (e : GEnv) (heap0 : List BState)
    (cache0 : List (Checkpoint × Nat)) (c : Checkpoint) (tr : List Eff) :
    ∃ mid, (checkHeadPath e heap0 cache0 c tr).trace = tr ++ (mid ++ [Eff.lockRel]) := by
  cases hhr : e.headRoot with
  | error m => exact ⟨[.headRootRead], by simp [checkHeadPath, hhr]⟩
  | ok hr =>
    by_cases heq : hr = c.root
    · cases hhs : e.headState with
      | error m =>
        exact ⟨[.headRootRead, .headStateRead],
          by simp [checkHeadPath, hhr, if_pos heq, hhs]⟩
      | ok idH =>
        exact ⟨[.headRootRead, .headStateRead, .cacheInsert c heap0.length],
          by simp [checkHeadPath, hhr, if_pos heq, hhs]⟩
    · obtain ⟨mid, hm⟩ := legacyPath_trace_shape e heap0 cache0 c (tr ++ [Eff.headRootRead])
      refine ⟨Eff.headRootRead :: mid, ?_⟩
      simp only [checkHeadPath, hhr, if_neg heq]
      simp [hm]

theorem getAttPreState_trace_shape (e : GEnv) (heap0 : List BState)
    (cache0 : List (Checkpoint × Nat)) (c : Checkpoint) :
    ∃ mid, (getAttPreState e heap0 cache0 c).trace =
      Eff.lockAcq :: (mid ++ [Eff.lockRel]) := by
  cases hl : cpLookup cache0 c with
  | some id => exact ⟨[.cacheLookup c], by simp [getAttPreState, hl]⟩
  | none =>
    by_cases h1 : e.flags.newStateMgmt
    · obtain ⟨mid, hm⟩ := newMgmtPath_trace_shape e heap0 cache0 c
        [Eff.lockAcq, Eff.cacheLookup c]
      refine ⟨Eff.cacheLookup c :: mid, ?_⟩
      simp only [getAttPreState, hl, h1, if_true]
      simp [hm]
    · by_cases h2 : e.flags.checkHeadState
      · obtain ⟨mid, hm⟩ := checkHeadPath_trace_shape e heap0 cache0 c
          [Eff.lockAcq, Eff.cacheLookup c]
        refine ⟨Eff.cacheLookup c :: mid, ?_⟩
        simp only [getAttPreState, hl, h1, h2, if_false, if_true, Bool.false_eq_true]
        simp [hm]
      · obtain ⟨mid, hm⟩ := legacyPath_trace_shape e heap0 cache0 c
          [Eff.lockAcq, Eff.cacheLookup c]
        refine ⟨Eff.cacheLookup c :: mid, ?_⟩
        simp only [getAttPreState, hl, h1, h2, if_false, Bool.false_eq_true]
        simp [hm]

theorem newMgmtCore_ok_cached (e : GEnv) (heap0 : List BState)
    (cache0 : List (Checkpoint × Nat)) (c : Checkpoint) (tr : List Eff) (id : Nat)
    (h : (newMgmtCore e heap0 cache0 c tr).res = .ok id) :
    ∃ j, cpLookup (newMgmtCore e heap0 cache0 c tr).cache c = some j := by
  cases hroot : e.stateGenRoot (toBytes32 c.root) with
  | error m => simp [newMgmtCore, hroot] at h
  | ok idB =>
    by_cases hgt : startSlot c.epoch > (hget heap0 idB).slot
    · cases hps : e.ps (hget heap0 idB) (startSlot c.epoch) with
      | error m => simp [newMgmtCore, hroot, if_pos hgt, hps] at h
      | ok v2 =>
        refine ⟨heap0.length, ?_⟩
        simp only [newMgmtCore, hroot, if_pos hgt, hps]
        exact cpLookup_cons_self cache0 c heap0.length
    · refine ⟨idB, ?_⟩
      simp only [newMgmtCore, hroot, if_neg hgt]
      exact cpLookup_cons_self cache0 c idB

theorem newMgmtPath_ok_cached (e : GEnv) (heap0 : List BState)
    (cache0 : List (Checkpoint × Nat)) (c : Checkpoint) (tr : List Eff) (id : Nat)
    (h : (newMgmtPath e heap0 cache0 c tr).res = .ok id) :
    ∃ j, cpLookup (newMgmtPath e heap0 cache0 c tr).cache c = some j := by
  by_cases hhas : e.stateGenHas (toBytes32 c.root)
  · simp only [newMgmtPath, hhas, if_true] at h ⊢
    exact newMgmtCore_ok_cached e heap0 cache0 c _ id h
  · simp only [newMgmtPath, hhas, if_false, Bool.false_eq_true] at h ⊢
    cases hs : e.saveInitSync with
    | error m => simp [hs] at h
    | ok u =>
      simp only [hs] at h ⊢
      exact newMgmtCore_ok_cached e heap0 cache0 c _ id h

theorem legacyPath_ok_cached (e : GEnv) (heap0 : List BState)
    (cache0 : List (Checkpoint × Nat)) (c : Checkpoint) (tr : List Eff) (id : Nat)
    (h : (legacyPath e heap0 cache0 c tr).res = .ok id) :
    ∃ j, cpLookup (legacyPath e heap0 cache0 c tr).cache c = some j := by
  cases hroot : e.dbStateRoot (toBytes32 c.root) with
  | error m => simp [legacyPath, hroot] at h
  | ok ob =>
    cases ob with
    | none => simp [legacyPath, hroot] at h
    | some idB =>
      by_cases hgt : startSlot c.epoch > (hget heap0 idB).slot
      · cases hps : e.ps (hget heap0 idB) (startSlot c.epoch) with
        | error m => simp [legacyPath, hroot, if_pos hgt, hps] at h
        | ok v2 =>
          refine ⟨((heap0 ++ [hget heap0 idB]).set heap0.length v2).length, ?_⟩
          simp only [legacyPath, hroot, if_pos hgt, hps]
          exact cpLookup_cons_self cache0 c _
      · refine ⟨heap0.length, ?_⟩
        simp only [legacyPath, hroot, if_neg hgt]
        exact cpLookup_cons_self cache0 c heap0.length

theorem checkHeadPath_ok_cached (e : GEnv) (heap0 : List BState)
    (cache0 : List (Checkpoint × Nat)) (c : Checkpoint) (tr : List Eff) (id : Nat)
    (h : (checkHeadPath e heap0 cache0 c tr).res = .ok id) :
    ∃ j, cpLookup (checkHeadPath e heap0 cache0 c tr).cache c = some j := by
  cases hhr : e.headRoot with
  | error m => simp [checkHeadPath, hhr] at h
  | ok hr =>
    by_cases heq : hr = c.root
    · cases hhs : e.headState with
      | error m => simp [checkHeadPath, hhr, if_pos heq, hhs] at h
      | ok idH =>
        refine ⟨heap0.length, ?_⟩
        simp only [checkHeadPath, hhr, if_pos heq, hhs]
        exact cpLookup_cons_self cache0 c heap0.length
    · simp only [checkHeadPath, hhr, if_neg heq] at h ⊢
      exact legacyPath_ok_cached e heap0 cache0 c _ id h

theorem getAttPreState_ok_cached (e : GEnv) (heap0 : List BState)
    (cache0 : List (Checkpoint × Nat)) (c : Checkpoint) (id : Nat)
    (h : (getAttPreState e heap0 cache0 c).res = .ok id) :
    ∃ j, cpLookup (getAttPreState e heap0 cache0 c).cache c = some j := by
  cases hl : cpLookup cache0 c with
  | some jd =>
    refine ⟨jd, ?_⟩
    simp only [getAttPreState, hl]
  | none =>
    by_cases h1 : e.flags.newStateMgmt
    · simp only [getAttPreState, hl, h1, if_true] at h ⊢
      exact newMgmtPath_ok_cached e heap0 cache0 c _ id h
    · by_cases h2 : e.flags.checkHeadState
      · simp only [getAttPreState, hl, h1, h2, if_false, if_true, Bool.false_eq_true] at h ⊢
        exact checkHeadPath_ok_cached e heap0 cache0 c _ id h
      · simp only [getAttPreState, hl, h1, h2, if_false, Bool.false_eq_true] at h ⊢
        exact legacyPath_ok_cached e heap0 cache0 c _ id h

/-- C9 counterexample: on a cache miss, the state-generation work (the
state-generator fetch and the slot processing) occurs strictly between the
guard's acquisition and its release — the exclusive guard is held during the
slow state generation, not only for cache lookup and insertion. -/
theorem lock_scope_counterexample :
    Eff.stateGenFetch (toBytes32 [7]) ∈
      lockedSpan (getAttPreState genPathEnv [⟨20, 5⟩] [] ⟨1, [7]⟩).trace ∧
    (lockedSpan (getAttPreState genPathEnv [⟨20, 5⟩] [] ⟨1, [7]⟩).trace).filter isGenEff ≠
      [] := by decide

/-- C9 amended: the exclusive guard is held for the whole `getAttPreState`
call — every trace opens with the acquisition and closes with the release,
with all work in between — and duplicate generations for the same checkpoint
are nevertheless suppressed, because after any successful call a subsequent
(serialized) call for the same checkpoint is a pure cache hit performing no
generation work. -/
theorem lock_guard_whole_call (e : GEnv) (heap0 : List BState)
    (cache0 : List (Checkpoint × Nat)) (c : Checkpoint) :
    (∃ mid, (getAttPreState e heap0 cache0 c).trace =
      Eff.lockAcq :: (mid ++ [Eff.lockRel])) ∧
    (∀ id, (getAttPreState e heap0 cache0 c).res = .ok id →
      ∃ j, getAttPreState e (getAttPreState e heap0 cache0 c).heap
            (getAttPreState e heap0 cache0 c).cache c =
          ⟨.ok j, (getAttPreState e heap0 cache0 c).heap,
            (getAttPreState e heap0 cache0 c).cache,
            [.lockAcq, .cacheLookup c, .lockRel]⟩) := by
  refine ⟨getAttPreState_trace_shape e heap0 cache0 c, fun id hok => ?_⟩
  obtain ⟨j, hj⟩ := getAttPreState_ok_cached e heap0 cache0 c id hok
  exact ⟨j, getAttPreState_hit e _ _ c j hj⟩

theorem lock_guard_whole_call_witness :
    (getAttPreState genPathEnv [⟨20, 5⟩] [] ⟨1, [7]⟩).res = .ok 1 ∧
    ∃ j, getAttPreState genPathEnv (getAttPreState genPathEnv [⟨20, 5⟩] [] ⟨1, [7]⟩).heap
          (getAttPreState genPathEnv [⟨20, 5⟩] [] ⟨1, [7]⟩).cache ⟨1, [7]⟩ =
        ⟨.ok j, (getAttPreState genPathEnv [⟨20, 5⟩] [] ⟨1, [7]⟩).heap,
          (getAttPreState genPathEnv [⟨20, 5⟩] [] ⟨1, [7]⟩).cache,
          [.lockAcq, .cacheLookup ⟨1, [7]⟩, .lockRel]⟩ :=
  ⟨by decide, (lock_guard_whole_call genPathEnv [⟨20, 5⟩] [] ⟨1, [7]⟩).2 1 (by decide)⟩
